import Mathlib

set_option autoImplicit false
set_option linter.unusedVariables false

namespace Swupdate

/-- Model of `Uptane::Target` restricted to the fields the swupdate package
manager reads: the filename, the declared byte length (`target.length()`),
the source URI (`target.uri()`) and the expected sha256 digest
(`target.sha256Hash()`), kept as an abstract string. Byte counts are modelled
as `Nat`; the C++ counters are 64-bit but all lengths in play are far below
`2^64`, so wraparound never matters for the properties stated here. -/
structure Target where
  filename : String
  length : Nat
  uri : String
  sha256Hash : String
deriving Repr, DecidableEq

/-- The shared mutable state of one install attempt. It bundles the fields of
the global `DownloadMetaStruct ds` that the download/handoff path reads and
writes (`downloaded_length`, the bytes fed so far to the streaming hasher,
and the flow-control `token` pointer, modelled as `Option Bool` where
`some true` means the token is signalled/aborted and `none` is a null
pointer) together with the file-scope handoff globals `data_buffer`,
`data_ready`, `data_read` and `unrecoverable_error`. The field `consumed` is
a ghost counter of the bytes `readimage` has handed to the installer engine;
it mirrors no C++ variable and is used only to state what the consumer
observes. The streaming hasher is modelled by the list `hashed` of bytes fed
to it; the digest of that state is `hash hashed` for an abstract digest
function `hash`, so the two-hasher dispatch of `DownloadMetaStruct::hasher`
is collapsed into one abstract function. -/
structure SharedState where
  downloaded_length : Nat
  hashed : List Nat
  token : Option Bool
  data_buffer : List Nat
  data_ready : Bool
  data_read : Bool
  unrecoverable_error : Bool
  consumed : Nat
deriving Repr, DecidableEq

/-- Result of one invocation of the chunk callback: either the process is
terminated from inside the callback (`exit(-1)` in the source) or the
callback returns the number of bytes it accepted. -/
inductive HandlerResult where
  | procExit
  | ret (n : Nat)
deriving Repr, DecidableEq

/-- Model of the static `DownloadHandler(contents, size, nmemb, userp)`
callback, the producer side of the handoff. `chunk` is the `size * nmemb`
bytes pointed to by `contents`. The source in order: (1) exits if
`unrecoverable_error` is already set; (2) if `downloaded_length + downloaded`
exceeds `target.length()` it records the over-length fault, wakes all
waiters and exits, touching neither the buffer nor the hasher; (3) waits
until `!data_ready` (the caller of this model invokes it only in that state,
exactly as the strict producer/consumer alternation guarantees); (4) copies
the chunk into `data_buffer`, feeds it to the hasher and adds its length to
`downloaded_length`; (5) if the transfer is now complete and the final
digest differs from `target.sha256Hash()` it records the fault and exits
without ever setting `data_ready`; (6) otherwise publishes the frame
(`data_ready := true`, `data_read := false`), wakes the consumer, waits for
`data_read`, and returns the chunk length. The flow-control token held in
the struct is never consulted anywhere in the callback. -/
def DownloadHandler (hash : List Nat → String) (target : Target)
    (s : SharedState) (chunk : List Nat) : HandlerResult × SharedState :=
  if s.unrecoverable_error then (.procExit, s)
  else if s.downloaded_length + chunk.length > target.length then
    (.procExit, { s with unrecoverable_error := true })
  else if s.downloaded_length + chunk.length = target.length ∧
      hash (s.hashed ++ chunk) ≠ target.sha256Hash then
    (.procExit,
      { s with data_buffer := chunk, hashed := s.hashed ++ chunk,
               downloaded_length := s.downloaded_length + chunk.length,
               unrecoverable_error := true })
  else
    (.ret chunk.length,
      { s with data_buffer := chunk, hashed := s.hashed ++ chunk,
               downloaded_length := s.downloaded_length + chunk.length,
               data_ready := true, data_read := false })

/-- Model of `SwupdateManager::readimage(pbuf, size)`, the consumer-side pull
callback handed to the installer engine. It waits until `data_ready` or
`unrecoverable_error` (the wait is discharged by the caller invoking it in
such a state); if a fault has been recorded it returns the negative sentinel
`-1` to the engine; otherwise it copies the frame out of `data_buffer`,
marks the slot empty (`data_ready := false`), wakes the producer
(`data_read := true`) and returns the frame's length. The ghost field
`consumed` accumulates the bytes returned to the engine. -/
def readimage (s : SharedState) : Int × SharedState :=
  if s.unrecoverable_error then (-1, s)
  else ((s.data_buffer.length : Int),
    { s with data_ready := false, data_read := true,
             consumed := s.consumed + s.data_buffer.length })

/-- Outcome of driving the producer/consumer handoff over a whole chunk
sequence: either some callback terminated the process, or every chunk was
handed over and the fetch loop finished. In both cases the shared state at
that point is kept. -/
inductive RunResult where
  | procExited (s : SharedState)
  | finished (s : SharedState)
deriving Repr, DecidableEq

/-- The shared state carried by a `RunResult`. -/
def runState : RunResult → SharedState
  | .procExited s => s
  | .finished s => s

/-- Whether a `RunResult` ended in process termination. -/
def isProcExited : RunResult → Bool
  | .procExited _ => true
  | .finished _ => false

/-- Sequentialized execution of the download loop: the transport invokes
`DownloadHandler` once per chunk, and — because the handler publishes a
frame and then blocks until `data_read` — the engine's `readimage` pull is
interleaved after every successful push before the next chunk arrives. This
strict alternation is exactly the synchronization the condition-variable
waits enforce in the source. -/
def runChunks (hash : List Nat → String) (target : Target) :
    List (List Nat) → SharedState → RunResult
  | [], s => .finished s
  | c :: rest, s =>
    match DownloadHandler hash target s c with
    | (.procExit, s1) => .procExited s1
    | (.ret _, s1) => runChunks hash target rest (readimage s1).2

def EXIT_SUCCESS : Nat := 0

def EXIT_FAILURE : Nat := 1

/-- The state the attempt starts from: `swupdate_install` creates a fresh
`DownloadMetaStruct` with `progress_cb` and `token` both null, and the
handoff globals start out with no frame, no fault and nothing consumed. -/
def initState : SharedState :=
  { downloaded_length := 0, hashed := [], token := none, data_buffer := [],
    data_ready := false, data_read := false, unrecoverable_error := false,
    consumed := 0 }

/-- Outcome of `SwupdateManager::swupdate_install`: either some callback
terminated the process before the function could return, or it returned an
exit code; the shared state at the end is kept alongside. -/
inductive SwOutcome where
  | processExited (s : SharedState)
  | returned (code : Nat) (s : SharedState)
deriving Repr, DecidableEq

/-- Model of `SwupdateManager::swupdate_install(target)`. `startRc` is the
return of `swupdate_async_start`; a negative value short-circuits to
`EXIT_FAILURE` before the download thread is started. Otherwise the download
thread runs the fetch, feeding `chunks` through `DownloadHandler`; after the
fetch returns, a non-200 `httpStatus` stores `unrecoverable_error`. The
function waits on the completion latch `cv_end` (signalled by `endupdate`),
joins the download thread — so the transport-status store happens before the
final check — and returns `EXIT_FAILURE` exactly when `unrecoverable_error`
is set, else `EXIT_SUCCESS`. `engineSuccess` is the status `endupdate`
receives from the engine; the source only uses it to print and to signal the
latch, never in the returned code, and the model keeps it as an (unused)
input to make that visible. -/
def swupdate_install (hash : List Nat → String) (target : Target)
    (startRc : Int) (chunks : List (List Nat)) (httpStatus : Nat)
    (engineSuccess : Bool) : SwOutcome :=
  if startRc < 0 then .returned EXIT_FAILURE initState
  else
    match runChunks hash target chunks initState with
    | .procExited s => .processExited s
    | .finished s =>
      let s2 := if httpStatus ≠ 200 then { s with unrecoverable_error := true }
                else s
      if s2.unrecoverable_error then .returned EXIT_FAILURE s2
      else .returned EXIT_SUCCESS s2

/-- Whether a `SwOutcome` is a process termination. -/
def isProcessExit : SwOutcome → Bool
  | .processExited _ => true
  | .returned _ _ => false

/-- Result codes of `data::ResultCode::Numeric` used by this package
manager. -/
inductive Numeric where
  | kOk
  | kInstallFailed
  | kNeedCompletion
deriving Repr, DecidableEq

/-- Model of `data::InstallationResult` as the pair of its numeric code and
its description string. -/
structure InstallationResult where
  result_code : Numeric
  description : String
deriving Repr, DecidableEq

/-- Model of `SwupdateManager::install(target)`: it runs `swupdate_install`
and maps a positive exit code to `kInstallFailed` and anything else to
`kNeedCompletion`. When a callback terminated the process, `install` never
returns at all, modelled as `none`. -/
def install (hash : List Nat → String) (target : Target) (startRc : Int)
    (chunks : List (List Nat)) (httpStatus : Nat) (engineSuccess : Bool) :
    Option InstallationResult :=
  match swupdate_install hash target startRc chunks httpStatus engineSuccess with
  | .processExited _ => none
  | .returned code _ =>
    if code > 0 then some ⟨.kInstallFailed, "swupdate_install failed"⟩
    else some ⟨.kNeedCompletion, "Application successful, need reboot"⟩

/-- The bootloader collaborator's state as this code uses it:
`rebootDetected` is what `bootloader_->rebootDetected()` reports and
`rebootFlag` is the durable reboot-pending marker that
`bootloader_->rebootFlagClear()` clears. -/
structure BootloaderState where
  rebootDetected : Bool
  rebootFlag : Bool
deriving Repr, DecidableEq

/-- Model of `bootloader_->rebootFlagClear()`. -/
def rebootFlagClear (b : BootloaderState) : BootloaderState :=
  { b with rebootFlag := false }

/-- Model of `SwupdateManager::getCurrentHash()`: the source returns this
fixed string literal (commented there as an unimplemented dummy root hash)
regardless of storage, bootloader or installed-version state. -/
def getCurrentHash : String :=
  "c8cfb0988662ce4fb60beff47b741705146548a8e62801fbb0cbdeaf198fa47e"

/-- Model of `SwupdateManager::finalizeInstall(target)`. If the bootloader
reports no reboot detected it returns `kNeedCompletion` and touches nothing.
Otherwise it compares `getCurrentHash()` with `target.sha256Hash()`,
producing `kOk` on a match and `kInstallFailed` ("Wrong version booted", the
rollback indication) on a mismatch, and in both of those branches it calls
`rebootFlagClear` unconditionally before returning. -/
def finalizeInstall (target : Target) (b : BootloaderState) :
    InstallationResult × BootloaderState :=
  if !b.rebootDetected then
    (⟨.kNeedCompletion, "Reboot is required for the pending update application"⟩, b)
  else
    let current_hash := getCurrentHash
    let install_result :=
      if current_hash ≠ target.sha256Hash then
        (⟨.kInstallFailed, "Wrong version booted"⟩ : InstallationResult)
      else ⟨.kOk, "Successfully booted on new version"⟩
    (install_result, rebootFlagClear b)

/-- Total number of bytes in a chunk sequence. -/
def sumLen (chunks : List (List Nat)) : Nat :=
  (chunks.map List.length).sum

@[simp]
theorem sumLen_nil : sumLen [] = 0 := rfl

@[simp]
theorem sumLen_cons (c : List Nat) (rest : List (List Nat)) :
    sumLen (c :: rest) = c.length + sumLen rest := by
  simp [sumLen]

theorem flatten_eq_nil_of_sumLen_eq_zero :
    ∀ chunks : List (List Nat), sumLen chunks = 0 → chunks.flatten = [] := by
  intro chunks
  induction chunks with
  | nil => intro _; rfl
  | cons c rest ih =>
    intro h
    rw [sumLen_cons] at h
    have hc : c.length = 0 := by omega
    have hr : sumLen rest = 0 := by omega
    rw [List.length_eq_zero] at hc
    simp [hc, ih hr]

theorem DownloadHandler_err (hash : List Nat → String) (target : Target)
    (s : SharedState) (chunk : List Nat) (h : s.unrecoverable_error = true) :
    DownloadHandler hash target s chunk = (.procExit, s) := by
  simp [DownloadHandler, h]

theorem DownloadHandler_over (hash : List Nat → String) (target : Target)
    (s : SharedState) (chunk : List Nat)
    (herr : s.unrecoverable_error = false)
    (h : s.downloaded_length + chunk.length > target.length) :
    DownloadHandler hash target s chunk =
      (.procExit, { s with unrecoverable_error := true }) := by
  simp [DownloadHandler, herr, h]

theorem DownloadHandler_mismatch (hash : List Nat → String) (target : Target)
    (s : SharedState) (chunk : List Nat)
    (herr : s.unrecoverable_error = false)
    (hle : ¬ s.downloaded_length + chunk.length > target.length)
    (h : s.downloaded_length + chunk.length = target.length ∧
         hash (s.hashed ++ chunk) ≠ target.sha256Hash) :
    DownloadHandler hash target s chunk =
      (.procExit,
        { s with data_buffer := chunk, hashed := s.hashed ++ chunk,
                 downloaded_length := s.downloaded_length + chunk.length,
                 unrecoverable_error := true }) := by
  rw [DownloadHandler, if_neg (by simp [herr]), if_neg hle, if_pos h]

theorem DownloadHandler_ok (hash : List Nat → String) (target : Target)
    (s : SharedState) (chunk : List Nat)
    (herr : s.unrecoverable_error = false)
    (hle : ¬ s.downloaded_length + chunk.length > target.length)
    (hok : ¬ (s.downloaded_length + chunk.length = target.length ∧
              hash (s.hashed ++ chunk) ≠ target.sha256Hash)) :
    DownloadHandler hash target s chunk =
      (.ret chunk.length,
        { s with data_buffer := chunk, hashed := s.hashed ++ chunk,
                 downloaded_length := s.downloaded_length + chunk.length,
                 data_ready := true, data_read := false }) := by
  rw [DownloadHandler, if_neg (by simp [herr]), if_neg hle, if_neg hok]

theorem readimage_err (s : SharedState) (h : s.unrecoverable_error = true) :
    readimage s = (-1, s) := by
  simp [readimage, h]

theorem readimage_ok (s : SharedState) (h : s.unrecoverable_error = false) :
    readimage s = ((s.data_buffer.length : Int),
      { s with data_ready := false, data_read := true,
               consumed := s.consumed + s.data_buffer.length }) := by
  simp [readimage, h]

theorem runChunks_cons_err (hash : List Nat → String) (target : Target)
    (s : SharedState) (c : List Nat) (rest : List (List Nat))
    (h : s.unrecoverable_error = true) :
    runChunks hash target (c :: rest) s = .procExited s := by
  rw [runChunks, DownloadHandler_err hash target s c h]

theorem runChunks_cons_over (hash : List Nat → String) (target : Target)
    (s : SharedState) (c : List Nat) (rest : List (List Nat))
    (herr : s.unrecoverable_error = false)
    (h : s.downloaded_length + c.length > target.length) :
    runChunks hash target (c :: rest) s =
      .procExited { s with unrecoverable_error := true } := by
  rw [runChunks, DownloadHandler_over hash target s c herr h]

theorem runChunks_cons_mismatch (hash : List Nat → String) (target : Target)
    (s : SharedState) (c : List Nat) (rest : List (List Nat))
    (herr : s.unrecoverable_error = false)
    (hle : ¬ s.downloaded_length + c.length > target.length)
    (h : s.downloaded_length + c.length = target.length ∧
         hash (s.hashed ++ c) ≠ target.sha256Hash) :
    runChunks hash target (c :: rest) s =
      .procExited
        { s with data_buffer := c, hashed := s.hashed ++ c,
                 downloaded_length := s.downloaded_length + c.length,
                 unrecoverable_error := true } := by
  rw [runChunks, DownloadHandler_mismatch hash target s c herr hle h]

theorem runChunks_cons_ok (hash : List Nat → String) (target : Target)
    (s : SharedState) (c : List Nat) (rest : List (List Nat))
    (herr : s.unrecoverable_error = false)
    (hle : ¬ s.downloaded_length + c.length > target.length)
    (hok : ¬ (s.downloaded_length + c.length = target.length ∧
              hash (s.hashed ++ c) ≠ target.sha256Hash)) :
    runChunks hash target (c :: rest) s =
      runChunks hash target rest
        { s with data_buffer := c, hashed := s.hashed ++ c,
                 downloaded_length := s.downloaded_length + c.length,
                 data_ready := false, data_read := true,
                 consumed := s.consumed + c.length } := by
  rw [runChunks, DownloadHandler_ok hash target s c herr hle hok]
  show runChunks hash target rest (readimage { s with data_buffer := c, hashed := s.hashed ++ c, downloaded_length := s.downloaded_length + c.length, data_ready := true, data_read := false }).2 = _
  rw [readimage_ok _ (by simpa using herr)]

theorem runChunks_procExited_spec (hash : List Nat → String) (target : Target) :
    ∀ (chunks : List (List Nat)) (s s' : SharedState),
      runChunks hash target chunks s = .procExited s' →
      s'.unrecoverable_error = true ∧
      (s.data_ready = false → s'.data_ready = false) := by
  intro chunks
  induction chunks with
  | nil =>
    intro s s' h
    simp [runChunks] at h
  | cons c rest ih =>
    intro s s' h
    rw [runChunks] at h
    by_cases h1 : s.unrecoverable_error = true
    · rw [DownloadHandler_err hash target s c h1] at h
      simp at h
      exact h ▸ ⟨h1, fun hd => hd⟩
    · have h1' : s.unrecoverable_error = false := by
        simpa using h1
      by_cases h2 : s.downloaded_length + c.length > target.length
      · rw [DownloadHandler_over hash target s c h1' h2] at h
        simp at h
        subst h
        exact ⟨rfl, fun hd => hd⟩
      · by_cases h3 : s.downloaded_length + c.length = target.length ∧
            hash (s.hashed ++ c) ≠ target.sha256Hash
        · rw [DownloadHandler_mismatch hash target s c h1' h2 h3] at h
          simp at h
          subst h
          exact ⟨rfl, fun hd => hd⟩
        · rw [DownloadHandler_ok hash target s c h1' h2 h3] at h
          have hready : (readimage
              { s with data_buffer := c, hashed := s.hashed ++ c,
                       downloaded_length := s.downloaded_length + c.length,
                       data_ready := true, data_read := false }).2.data_ready
              = false := by
            rw [readimage_ok _ (by simpa using h1')]
          have hres := ih _ s' h
          exact ⟨hres.1, fun _ => hres.2 hready⟩

theorem runChunks_finished_le (hash : List Nat → String) (target : Target) :
    ∀ (chunks : List (List Nat)) (s s' : SharedState),
      s.downloaded_length ≤ target.length →
      runChunks hash target chunks s = .finished s' →
      s.downloaded_length + sumLen chunks ≤ target.length := by
  intro chunks
  induction chunks with
  | nil => intro s s' hle h; simpa using hle
  | cons c rest ih =>
    intro s s' hle h
    by_cases h1 : s.unrecoverable_error = true
    · rw [runChunks_cons_err hash target s c rest h1] at h
      simp at h
    · have h1' : s.unrecoverable_error = false := by simpa using h1
      by_cases h2 : s.downloaded_length + c.length > target.length
      · rw [runChunks_cons_over hash target s c rest h1' h2] at h
        simp at h
      · by_cases h3 : s.downloaded_length + c.length = target.length ∧
            hash (s.hashed ++ c) ≠ target.sha256Hash
        · rw [runChunks_cons_mismatch hash target s c rest h1' h2 h3] at h
          simp at h
        · rw [runChunks_cons_ok hash target s c rest h1' h2 h3] at h
          have hstep := ih _ s'
            (show s.downloaded_length + c.length ≤ target.length by omega) h
          have hstep' :
              s.downloaded_length + c.length + sumLen rest ≤ target.length :=
            hstep
          rw [sumLen_cons]
          omega

theorem runChunks_consumed_le (hash : List Nat → String) (target : Target) :
    ∀ (chunks : List (List Nat)) (s : SharedState),
      s.consumed ≤ s.downloaded_length →
      s.downloaded_length ≤ target.length →
      (runState (runChunks hash target chunks s)).consumed ≤ target.length := by
  intro chunks
  induction chunks with
  | nil =>
    intro s hc hd
    simpa [runChunks, runState] using le_trans hc hd
  | cons c rest ih =>
    intro s hc hd
    by_cases h1 : s.unrecoverable_error = true
    · rw [runChunks_cons_err hash target s c rest h1]
      simpa [runState] using le_trans hc hd
    · have h1' : s.unrecoverable_error = false := by simpa using h1
      by_cases h2 : s.downloaded_length + c.length > target.length
      · rw [runChunks_cons_over hash target s c rest h1' h2]
        simpa [runState] using le_trans hc hd
      · by_cases h3 : s.downloaded_length + c.length = target.length ∧
            hash (s.hashed ++ c) ≠ target.sha256Hash
        · rw [runChunks_cons_mismatch hash target s c rest h1' h2 h3]
          show s.consumed ≤ target.length
          omega
        · rw [runChunks_cons_ok hash target s c rest h1' h2 h3]
          exact ih _
            (show s.consumed + c.length ≤ s.downloaded_length + c.length by omega)
            (show s.downloaded_length + c.length ≤ target.length by omega)

theorem runChunks_success (hash : List Nat → String) (target : Target) :
    ∀ (chunks : List (List Nat)) (s : SharedState),
      s.unrecoverable_error = false →
      s.downloaded_length + sumLen chunks = target.length →
      hash (s.hashed ++ chunks.flatten) = target.sha256Hash →
      ∃ s', runChunks hash target chunks s = .finished s' ∧
        s'.unrecoverable_error = false := by
  intro chunks
  induction chunks with
  | nil => intro s herr _ _; exact ⟨s, rfl, herr⟩
  | cons c rest ih =>
    intro s herr hlen hhash
    rw [sumLen_cons] at hlen
    have h2 : ¬ s.downloaded_length + c.length > target.length := by omega
    have h3 : ¬ (s.downloaded_length + c.length = target.length ∧
        hash (s.hashed ++ c) ≠ target.sha256Hash) := by
      rintro ⟨heq, hne⟩
      have hrest : sumLen rest = 0 := by omega
      have hfl : rest.flatten = [] := flatten_eq_nil_of_sumLen_eq_zero rest hrest
      rw [List.flatten_cons, hfl, List.append_nil] at hhash
      exact hne hhash
    rw [runChunks_cons_ok hash target s c rest herr h2 h3]
    apply ih
    · show s.unrecoverable_error = false
      exact herr
    · show s.downloaded_length + c.length + sumLen rest = target.length
      omega
    · show hash ((s.hashed ++ c) ++ rest.flatten) = target.sha256Hash
      rw [List.flatten_cons] at hhash
      rw [List.append_assoc]
      exact hhash

theorem runChunks_finished_hash (hash : List Nat → String) (target : Target) :
    ∀ (chunks : List (List Nat)) (s s' : SharedState), chunks ≠ [] →
      s.downloaded_length + sumLen chunks = target.length →
      runChunks hash target chunks s = .finished s' →
      hash (s.hashed ++ chunks.flatten) = target.sha256Hash := by
  intro chunks
  induction chunks with
  | nil => intro s s' hne _ _; exact absurd rfl hne
  | cons c rest ih =>
    intro s s' _ hlen h
    rw [sumLen_cons] at hlen
    by_cases h1 : s.unrecoverable_error = true
    · rw [runChunks_cons_err hash target s c rest h1] at h
      simp at h
    · have h1' : s.unrecoverable_error = false := by simpa using h1
      have h2 : ¬ s.downloaded_length + c.length > target.length := by omega
      by_cases h3 : s.downloaded_length + c.length = target.length ∧
          hash (s.hashed ++ c) ≠ target.sha256Hash
      · rw [runChunks_cons_mismatch hash target s c rest h1' h2 h3] at h
        simp at h
      · rcases eq_or_ne rest [] with hr | hr
        · subst hr
          have heq : s.downloaded_length + c.length = target.length := by
            simp at hlen
            omega
          have hcx : hash (s.hashed ++ c) = target.sha256Hash := by
            by_contra hne
            exact h3 ⟨heq, hne⟩
          simpa using hcx
        · rw [runChunks_cons_ok hash target s c rest h1' h2 h3] at h
          have hrec := ih _ s' hr
            (show s.downloaded_length + c.length + sumLen rest = target.length
              by omega) h
          have hrec' :
              hash ((s.hashed ++ c) ++ rest.flatten) = target.sha256Hash := hrec
          rw [List.flatten_cons, ← List.append_assoc]
          exact hrec'

/-- C1: the claim states that every fault raised inside the download/handoff
path is surfaced as an ordinary error result to the caller of the install
operation and that the process is never terminated from within the callback
context. The code does the opposite: `DownloadHandler` calls `exit(-1)` on
every fault path. Concretely, for a target of declared length 4 and a single
5-byte chunk, the over-length fault terminates the process from inside the
chunk callback — `install` never returns a result at all (modelled as
`none`), the attempt ends in `processExited`, and the fault flag is the last
thing recorded before the exit. -/
theorem downloadHandler_fault_exits_process :
    install (fun _ => "h") ⟨"f", 4, "u", "h"⟩ 0 [[0, 0, 0, 0, 0]] 200 true
      = none ∧
    isProcessExit (swupdate_install (fun _ => "h") ⟨"f", 4, "u", "h"⟩ 0
      [[0, 0, 0, 0, 0]] 200 true) = true ∧
    (runState (runChunks (fun _ => "h") ⟨"f", 4, "u", "h"⟩ [[0, 0, 0, 0, 0]]
      initState)).unrecoverable_error = true :=
  ⟨rfl, rfl, rfl⟩

/-- C2: when `finalizeInstall` runs with a reboot detected, it compares the
running-image digest reported by `getCurrentHash` with the target's expected
digest, returns `kOk` ("Successfully booted on new version") when they are
equal and `kInstallFailed` ("Wrong version booted", the rollback indication)
when they differ, and in both detected-reboot branches the reboot-pending
marker is cleared unconditionally via `rebootFlagClear`. -/
theorem finalizeInstall_reboot_detected (target : Target) (b : BootloaderState)
    (h : b.rebootDetected = true) :
    (finalizeInstall target b).2.rebootFlag = false ∧
    (getCurrentHash = target.sha256Hash →
      (finalizeInstall target b).1 =
        ⟨.kOk, "Successfully booted on new version"⟩) ∧
    (getCurrentHash ≠ target.sha256Hash →
      (finalizeInstall target b).1 =
        ⟨.kInstallFailed, "Wrong version booted"⟩) := by
  by_cases hc : getCurrentHash = target.sha256Hash <;>
    simp [finalizeInstall, h, hc, rebootFlagClear]

theorem finalizeInstall_reboot_detected_witness :
    (finalizeInstall
      ⟨"f", 0, "u",
        "c8cfb0988662ce4fb60beff47b741705146548a8e62801fbb0cbdeaf198fa47e"⟩
      ⟨true, true⟩).2.rebootFlag = false ∧
    (finalizeInstall
      ⟨"f", 0, "u",
        "c8cfb0988662ce4fb60beff47b741705146548a8e62801fbb0cbdeaf198fa47e"⟩
      ⟨true, true⟩).1 = ⟨.kOk, "Successfully booted on new version"⟩ :=
  ⟨(finalizeInstall_reboot_detected _ _ rfl).1,
   (finalizeInstall_reboot_detected _ _ rfl).2.1 rfl⟩

/-- C3: for every chunk sequence whose lengths sum exactly to
`target.length` and whose accumulated digest (the digest of the
concatenation of all chunks, which is what the streaming hasher accumulates
across pushes) equals the target's expected digest, with the engine started
(`startRc = 0`), the fetch ending with transport status 200 and the engine
completion reporting success, `install` returns `kNeedCompletion` — not
`kOk` — before any reboot. -/
theorem install_success_needCompletion (hash : List Nat → String)
    (target : Target) (chunks : List (List Nat))
    (hlen : sumLen chunks = target.length)
    (hhash : hash chunks.flatten = target.sha256Hash) :
    install hash target 0 chunks 200 true =
      some ⟨.kNeedCompletion, "Application successful, need reboot"⟩ := by
  obtain ⟨s', hrun, herr⟩ := runChunks_success hash target chunks initState rfl
    (by simpa [initState] using hlen) (by simpa [initState] using hhash)
  simp [install, swupdate_install, hrun, herr, EXIT_SUCCESS]

theorem install_success_needCompletion_witness :
    sumLen [[1], [2]] = (⟨"f", 2, "u", "h"⟩ : Target).length ∧
    (fun _ : List Nat => "h") ([[1], [2]] : List (List Nat)).flatten =
      (⟨"f", 2, "u", "h"⟩ : Target).sha256Hash ∧
    install (fun _ => "h") ⟨"f", 2, "u", "h"⟩ 0 [[1], [2]] 200 true =
      some ⟨.kNeedCompletion, "Application successful, need reboot"⟩ :=
  ⟨rfl, rfl, install_success_needCompletion _ _ _ rfl rfl⟩

/-- C4 counterexample: the claim quantifies over every chunk sequence whose
lengths sum exactly to `target.length` with a mismatching final digest, but
for the empty chunk sequence and a zero-length target the chunk callback
never runs, so the digest is never finalized or compared: no integrity fault
is recorded and the attempt returns `kNeedCompletion`, contradicting the
claimed `InstallFailed`-equivalent fault. Here the accumulated digest of the
empty transfer is `""` while the target expects `"d"`. -/
theorem integrity_mismatch_empty_counterexample :
    sumLen ([] : List (List Nat)) = (⟨"f", 0, "u", "d"⟩ : Target).length ∧
    (fun _ : List Nat => "") ([] : List (List Nat)).flatten ≠
      (⟨"f", 0, "u", "d"⟩ : Target).sha256Hash ∧
    runChunks (fun _ => "") ⟨"f", 0, "u", "d"⟩ [] initState =
      .finished initState ∧
    install (fun _ => "") ⟨"f", 0, "u", "d"⟩ 0 [] 200 true =
      some ⟨.kNeedCompletion, "Application successful, need reboot"⟩ := by
  refine ⟨rfl, ?_, rfl, rfl⟩
  decide

/-- C4 (amended): for every nonempty chunk sequence whose lengths sum
exactly to `target.length` but whose final accumulated digest differs from
the target's expected digest, the integrity fault is recorded
(`unrecoverable_error`) and the offending frame is never marked visible
(`data_ready` stays `false`), and the install attempt does not produce
`kNeedCompletion` — it aborts with the fault recorded (the callback
terminates the process, so `install` never returns, modelled as `none`). -/
theorem integrity_mismatch_faults (hash : List Nat → String) (target : Target)
    (chunks : List (List Nat)) (hne : chunks ≠ [])
    (hlen : sumLen chunks = target.length)
    (hhash : hash chunks.flatten ≠ target.sha256Hash) :
    isProcExited (runChunks hash target chunks initState) = true ∧
    (runState (runChunks hash target chunks initState)).unrecoverable_error
      = true ∧
    (runState (runChunks hash target chunks initState)).data_ready = false ∧
    install hash target 0 chunks 200 true = none := by
  cases hr : runChunks hash target chunks initState with
  | finished s' =>
    exact absurd
      (runChunks_finished_hash hash target chunks initState s' hne
        (by simpa [initState] using hlen) hr)
      (by simpa [initState] using hhash)
  | procExited s' =>
    obtain ⟨herr, hready⟩ :=
      runChunks_procExited_spec hash target chunks initState s' hr
    refine ⟨rfl, herr, hready rfl, ?_⟩
    simp [install, swupdate_install, hr]

theorem integrity_mismatch_faults_witness :
    ([[9]] : List (List Nat)) ≠ [] ∧
    sumLen [[9]] = (⟨"f", 1, "u", "b"⟩ : Target).length ∧
    (fun _ : List Nat => "a") ([[9]] : List (List Nat)).flatten ≠
      (⟨"f", 1, "u", "b"⟩ : Target).sha256Hash ∧
    (isProcExited (runChunks (fun _ => "a") ⟨"f", 1, "u", "b"⟩ [[9]] initState)
        = true ∧
      (runState (runChunks (fun _ => "a") ⟨"f", 1, "u", "b"⟩ [[9]]
        initState)).unrecoverable_error = true ∧
      (runState (runChunks (fun _ => "a") ⟨"f", 1, "u", "b"⟩ [[9]]
        initState)).data_ready = false ∧
      install (fun _ => "a") ⟨"f", 1, "u", "b"⟩ 0 [[9]] 200 true = none) :=
  ⟨by decide, rfl, by decide,
   integrity_mismatch_faults _ _ _ (by decide) rfl (by decide)⟩

/-- C5: for every chunk sequence whose cumulative length exceeds
`target.length`, the run terminates with the over-length fault recorded
(`unrecoverable_error = true`) before any out-of-bounds frame is published,
and the consumer never observes more than `target.length` cumulative bytes:
the ghost counter of bytes returned by `readimage` stays at or below
`target.length` (it is monotone, so this also bounds every intermediate
observation point of the execution). -/
theorem overlength_fault_before_visibility (hash : List Nat → String)
    (target : Target) (chunks : List (List Nat))
    (hover : sumLen chunks > target.length) :
    isProcExited (runChunks hash target chunks initState) = true ∧
    (runState (runChunks hash target chunks initState)).unrecoverable_error
      = true ∧
    (runState (runChunks hash target chunks initState)).consumed
      ≤ target.length := by
  have hcons := runChunks_consumed_le hash target chunks initState
    (by simp [initState]) (by simp [initState])
  cases hr : runChunks hash target chunks initState with
  | finished s' =>
    have hfin := runChunks_finished_le hash target chunks initState s'
      (by simp [initState]) hr
    have h0 : (0 : Nat) + sumLen chunks ≤ target.length := hfin
    omega
  | procExited s' =>
    obtain ⟨herr, _⟩ :=
      runChunks_procExited_spec hash target chunks initState s' hr
    rw [hr] at hcons
    exact ⟨rfl, herr, hcons⟩

theorem overlength_fault_before_visibility_witness :
    sumLen [[1, 1, 1]] > (⟨"f", 2, "u", "h"⟩ : Target).length ∧
    (isProcExited (runChunks (fun _ => "h") ⟨"f", 2, "u", "h"⟩ [[1, 1, 1]]
        initState) = true ∧
      (runState (runChunks (fun _ => "h") ⟨"f", 2, "u", "h"⟩ [[1, 1, 1]]
        initState)).unrecoverable_error = true ∧
      (runState (runChunks (fun _ => "h") ⟨"f", 2, "u", "h"⟩ [[1, 1, 1]]
        initState)).consumed ≤ (⟨"f", 2, "u", "h"⟩ : Target).length) :=
  ⟨by decide, overlength_fault_before_visibility _ _ _ (by decide)⟩

/-- C6: when the bootloader reports no reboot detected, `finalizeInstall`
returns `kNeedCompletion` and mutates no state: the returned bootloader
state is exactly the input state, so the reboot-pending marker is left as it
was and repeated calls are idempotent. -/
theorem finalizeInstall_no_reboot (target : Target) (b : BootloaderState)
    (h : b.rebootDetected = false) :
    finalizeInstall target b =
      (⟨.kNeedCompletion,
        "Reboot is required for the pending update application"⟩, b) := by
  simp [finalizeInstall, h]

theorem finalizeInstall_no_reboot_witness :
    finalizeInstall ⟨"f", 0, "u", "h"⟩ ⟨false, true⟩ =
      (⟨.kNeedCompletion,
        "Reboot is required for the pending update application"⟩,
       ⟨false, true⟩) :=
  finalizeInstall_no_reboot _ _ rfl

/-- C7: the claim states the producer polls the external flow-control token
before each push and records a cancellation fault when it is signalled. The
code contradicts this: `swupdate_install` constructs the download metadata
with a null token and `DownloadHandler` never reads the token field at all,
so the handler's behaviour is identical for every token value. Concretely
(scenario D of the spec): with a length-2 target, two one-byte chunks and
the token signalled throughout, the second push still occurs, returns the
chunk length and records no fault. -/
theorem token_never_polled :
    (∀ (hash : List Nat → String) (target : Target) (s : SharedState)
        (chunk : List Nat) (t1 t2 : Option Bool),
      (DownloadHandler hash target { s with token := t1 } chunk).1 =
        (DownloadHandler hash target { s with token := t2 } chunk).1 ∧
      ((DownloadHandler hash target
          { s with token := t1 } chunk).2).unrecoverable_error =
        ((DownloadHandler hash target
          { s with token := t2 } chunk).2).unrecoverable_error) ∧
    (DownloadHandler (fun _ => "h") ⟨"f", 2, "u", "h"⟩
      (readimage (DownloadHandler (fun _ => "h") ⟨"f", 2, "u", "h"⟩
        { initState with token := some true } [7]).2).2 [8]).1 =
      HandlerResult.ret 1 ∧
    ((DownloadHandler (fun _ => "h") ⟨"f", 2, "u", "h"⟩
      (readimage (DownloadHandler (fun _ => "h") ⟨"f", 2, "u", "h"⟩
        { initState with token := some true } [7]).2).2
      [8]).2).unrecoverable_error = false := by
  refine ⟨?_, rfl, rfl⟩
  intro hash target s chunk t1 t2
  by_cases h1 : s.unrecoverable_error = true <;>
    by_cases h2 : s.downloaded_length + chunk.length > target.length <;>
      by_cases h3 : s.downloaded_length + chunk.length = target.length ∧
          hash (s.hashed ++ chunk) ≠ target.sha256Hash <;>
        constructor <;> simp [DownloadHandler, h1, h2, h3]

/-- C8: when the fetch completes with a non-success transport status, the
download thread records the transport fault; because `swupdate_install`
joins the download thread before inspecting the fault flag, the recorded
fault is reflected in the returned code: the attempt returns `EXIT_FAILURE`
with `unrecoverable_error` set in the final state, and `install` reports
`kInstallFailed` rather than silently succeeding. -/
theorem transport_fault_fails_install (hash : List Nat → String)
    (target : Target) (chunks : List (List Nat)) (httpStatus : Nat)
    (s : SharedState)
    (hrun : runChunks hash target chunks initState = .finished s)
    (hstatus : httpStatus ≠ 200) :
    swupdate_install hash target 0 chunks httpStatus true =
      .returned EXIT_FAILURE { s with unrecoverable_error := true } ∧
    install hash target 0 chunks httpStatus true =
      some ⟨.kInstallFailed, "swupdate_install failed"⟩ := by
  constructor
  · simp [swupdate_install, hrun, hstatus]
  · simp [install, swupdate_install, hrun, hstatus, EXIT_FAILURE]

theorem transport_fault_fails_install_witness :
    runChunks (fun _ => "h") ⟨"f", 2, "u", "h"⟩ [] initState =
      .finished initState ∧
    (404 : Nat) ≠ 200 ∧
    install (fun _ => "h") ⟨"f", 2, "u", "h"⟩ 0 [] 404 true =
      some ⟨.kInstallFailed, "swupdate_install failed"⟩ :=
  ⟨rfl, by decide,
   (transport_fault_fails_install (fun _ => "h") ⟨"f", 2, "u", "h"⟩ [] 404
     initState rfl (by decide)).2⟩

/-- C9: whenever a fault has been recorded, the pull callback `readimage`
returns the negative sentinel `-1` to the engine (an abort signal, not a
process termination); otherwise it takes a copy of the frame, marks the slot
empty (`data_ready := false`), wakes the producer (`data_read := true`) and
returns the frame's length (the ghost counter `consumed` advancing by
exactly that length). -/
theorem readimage_pull_spec (s : SharedState) :
    (s.unrecoverable_error = true → readimage s = (-1, s)) ∧
    (s.unrecoverable_error = false →
      readimage s = ((s.data_buffer.length : Int),
        { s with data_ready := false, data_read := true,
                 consumed := s.consumed + s.data_buffer.length })) :=
  ⟨readimage_err s, readimage_ok s⟩

theorem readimage_pull_spec_witness :
    readimage { initState with unrecoverable_error := true } =
      (-1, { initState with unrecoverable_error := true }) ∧
    readimage { initState with data_buffer := [5], data_ready := true } =
      (1, { initState with data_buffer := [5], data_ready := false, data_read := true, consumed := 1 }) :=
  ⟨(readimage_pull_spec _).1 rfl, (readimage_pull_spec _).2 rfl⟩

/-- C10: `getCurrentHash` returns one fixed constant string regardless of
storage, bootloader or installed-version state (it takes no input at all in
the source beyond `this`, which it ignores); consequently, after a detected
reboot `finalizeInstall` returns `kOk` exactly when the target's sha256 hash
equals that constant, independently of what image is actually running. -/
theorem getCurrentHash_constant_decides_finalize (target : Target)
    (b : BootloaderState) (h : b.rebootDetected = true) :
    getCurrentHash =
      "c8cfb0988662ce4fb60beff47b741705146548a8e62801fbb0cbdeaf198fa47e" ∧
    ((finalizeInstall target b).1.result_code = Numeric.kOk ↔
      target.sha256Hash =
        "c8cfb0988662ce4fb60beff47b741705146548a8e62801fbb0cbdeaf198fa47e") := by
  refine ⟨rfl, ?_⟩
  constructor
  · intro hok
    by_contra hne
    have hcur : getCurrentHash ≠ target.sha256Hash := fun he => hne he.symm
    have hres : (finalizeInstall target b).1 =
        ⟨.kInstallFailed, "Wrong version booted"⟩ := by
      simp [finalizeInstall, h, hcur]
    rw [hres] at hok
    simp at hok
  · intro hsha
    have hcur : getCurrentHash = target.sha256Hash := hsha.symm
    have hres : (finalizeInstall target b).1 =
        ⟨.kOk, "Successfully booted on new version"⟩ := by
      simp [finalizeInstall, h, hcur]
    rw [hres]

theorem getCurrentHash_constant_decides_finalize_witness :
    getCurrentHash =
      "c8cfb0988662ce4fb60beff47b741705146548a8e62801fbb0cbdeaf198fa47e" ∧
    ((finalizeInstall
        ⟨"f", 0, "u",
          "c8cfb0988662ce4fb60beff47b741705146548a8e62801fbb0cbdeaf198fa47e"⟩
        ⟨true, false⟩).1.result_code = Numeric.kOk ↔
      (⟨"f", 0, "u",
          "c8cfb0988662ce4fb60beff47b741705146548a8e62801fbb0cbdeaf198fa47e"⟩
        : Target).sha256Hash =
        "c8cfb0988662ce4fb60beff47b741705146548a8e62801fbb0cbdeaf198fa47e") :=
  getCurrentHash_constant_decides_finalize _ _ rfl

end Swupdate
